import Mathlib

/-!
A shallow embedding of the snippet-extraction and execution-orchestration
engine of `run_code.py` (the documentation-code test harness), together with
theorems checking the natural-language specification against it.

Modelling conventions:
* file contents are given as the list of lines `f.readlines()` returns, each
  line keeping its trailing newline; the full content read by `f.read()` is
  the concatenation of those lines;
* the remote Deephaven session is an oracle `exec : String → RunResult`
  assigning to each submitted script text the outcome of
  `session.run_script` (completed, raised `DHError`, raised anything else);
* connection attempts are an oracle `attemptOk : Nat → Bool` telling whether
  the i-th attempt of a `connect_to_deephaven` call succeeds;
* an uncaught Python exception is `none` / `Except.error`.
-/

/-- Outcome of submitting one script to the session (`session.run_script`):
completed normally, raised the server's `DHError`, or raised any other
exception. -/
inductive RunResult where
  | ok : RunResult
  | dhError : RunResult
  | otherError : RunResult
deriving DecidableEq

/-- Result of extracting one file (`read_code_file` / `read_markdown_file`):
the `should_run` and `should_fail` snippet lists. -/
structure SnippetGroup where
  should_run : List String
  should_fail : List String
deriving DecidableEq

/-- `PYTHON_START_TAG` of `run_code.py`. -/
def PYTHON_START_TAG : String := "```python"

/-- `PYTHON_END_TAG` of `run_code.py`. -/
def PYTHON_END_TAG : String := "```"

/-- `PYTHON_EXTENSION` of `run_code.py`. -/
def PYTHON_EXTENSION : String := ".py"

/-- `GROOVY_START_TAG` of `run_code.py`. -/
def GROOVY_START_TAG : String := "```groovy"

/-- `GROOVY_END_TAG` of `run_code.py`. -/
def GROOVY_END_TAG : String := "```"

/-- `GROOVY_EXTENSION` of `run_code.py`. -/
def GROOVY_EXTENSION : String := ".groovy"

/-- The `skip-test` marker searched for by `read_markdown_file`. -/
def SKIP_TEXT : String := "skip-test"

/-- The `syntax` marker searched for by `read_markdown_file`. -/
def SYN_TEXT : String := "syntax"

/-- The `should-fail` marker searched for by `read_markdown_file`. -/
def SHOULD_FAIL_TEXT : String := "should-fail"

/-- The `test-set` marker searched for by `read_markdown_file`. -/
def TEST_SET_TEXT : String := "test-set"

/-- The literal part of the regex `test-set=(\d+)`. -/
def TEST_SET_EQ_TEXT : String := "test-set="

/-- The fixed Markdown suffix checked by `main` (`file_path.endswith(".md")`). -/
def MD_SUFFIX : String := ".md"

/-- Does `pat` occur as a contiguous sublist of the second list? -/
def charsContain (pat : List Char) : List Char → Bool
  | [] => List.isEmpty pat
  | c :: rest => List.isPrefixOf pat (c :: rest) || charsContain pat rest

/-- Python's substring test `pat in line`, on the character lists. -/
def strContains (line pat : String) : Bool := charsContain pat.data line.data

/-- Python's `line.startswith(pat)`. -/
def strStarts (line pat : String) : Bool := List.isPrefixOf pat.data line.data

/-- Python's `path.endswith(pat)`. -/
def strEnds (path pat : String) : Bool := List.isSuffixOf pat.data path.data

/-- Numeric value of a digit run (the `int(...)` conversion on the captured
group). -/
def digitsVal (cs : List Char) : Nat := List.foldl (fun n c => n * 10 + (c.toNat - 48)) 0 cs

/-- The first match of the regex `test-set=(\d+)` in the line, converted by
`int`, exactly as `int(re.findall(r'test-set=(\d+)', line)[0])` computes it;
`none` when the pattern matches nowhere, in which case the subscript `[0]`
raises an uncaught `IndexError`. `\d` is modelled as the ASCII digits. -/
def findTestSet : List Char → Option Nat
  | [] => none
  | c :: rest =>
    if List.isPrefixOf TEST_SET_EQ_TEXT.data (c :: rest) then
      match List.drop TEST_SET_EQ_TEXT.data.length (c :: rest) with
      | [] => findTestSet rest
      | d :: ds =>
        if d.isDigit then some (digitsVal (List.takeWhile Char.isDigit (d :: ds)))
        else findTestSet rest
    else findTestSet rest

/-- Parser state of `read_markdown_file`'s line loop. The Python locals
`current_script` and `should_fail` start as `None` but are read only after an
opener assigned them, so they are modelled with plain defaults. `closed` is a
ghost trace recording each closed block as (test-set id, should-fail flag,
body); it influences no behaviour. -/
structure MDState where
  no_ts_run : List String
  ts_run : List (Nat × String)
  no_ts_fail : List String
  ts_fail : List (Nat × String)
  test_set : Option Nat
  should_fail : Bool
  in_script : Bool
  current_script : String
  closed : List (Option Nat × Bool × String)
deriving DecidableEq

/-- The state at the top of `read_markdown_file`. -/
def initMD : MDState := ⟨[], [], [], [], none, false, false, "", []⟩

/-- The dictionary update `dict[k] = dict.get(k, "") + s` on an
insertion-ordered association list (Python dicts preserve insertion order). -/
def assocAppend : List (Nat × String) → Nat → String → List (Nat × String)
  | [], k, s => [(k, s)]
  | p :: rest, k, s =>
    if p.1 = k then (p.1, p.2 ++ s) :: rest else p :: assocAppend rest k s

/-- The close-of-snippet branch of `read_markdown_file` (a line starting with
the end tag while inside a snippet): dispatch `current_script` into the
bucket selected by `should_fail` and `test_set`, then clear `in_script` and
`test_set`. -/
def mdClose (st : MDState) : MDState :=
  match st.test_set, st.should_fail with
  | none, false =>
    { st with
      in_script := false
      test_set := none
      no_ts_run := st.no_ts_run ++ [st.current_script]
      closed := st.closed ++ [(none, false, st.current_script)] }
  | none, true =>
    { st with
      in_script := false
      test_set := none
      no_ts_fail := st.no_ts_fail ++ [st.current_script]
      closed := st.closed ++ [(none, true, st.current_script)] }
  | some k, false =>
    { st with
      in_script := false
      test_set := none
      ts_run := assocAppend st.ts_run k st.current_script
      closed := st.closed ++ [(some k, false, st.current_script)] }
  | some k, true =>
    { st with
      in_script := false
      test_set := none
      ts_fail := assocAppend st.ts_fail k st.current_script
      closed := st.closed ++ [(some k, true, st.current_script)] }

/-- One iteration of `read_markdown_file`'s line loop. `none` models the
uncaught `IndexError` raised by `re.findall(r'test-set=(\d+)', line)[0]` when
the opening line mentions `test-set` but the pattern matches nowhere. -/
def mdStep (start_tag end_tag : String) (st : MDState) (line : String) : Option MDState :=
  if strStarts line start_tag && !st.in_script
      && !(strContains line SKIP_TEXT || strContains line SYN_TEXT) then
    if strContains line TEST_SET_TEXT then
      match findTestSet line.data with
      | none => none
      | some n =>
        some { st with
          in_script := true
          should_fail := strContains line SHOULD_FAIL_TEXT
          current_script := ""
          test_set := some n }
    else
      some { st with
        in_script := true
        should_fail := strContains line SHOULD_FAIL_TEXT
        current_script := "" }
  else if strStarts line end_tag && st.in_script then
    some (mdClose st)
  else if st.in_script then
    some { st with current_script := st.current_script ++ line }
  else
    some st

/-- `read_markdown_file`'s loop over the lines of the file. -/
def runLines (start_tag end_tag : String) : MDState → List String → Option MDState
  | st, [] => some st
  | st, line :: rest =>
    match mdStep start_tag end_tag st line with
    | none => none
    | some st2 => runLines start_tag end_tag st2 rest

/-- The parser state after `read_markdown_file` has consumed the whole file. -/
def mdFinal (start_tag end_tag : String) (lines : List String) : Option MDState :=
  runLines start_tag end_tag initMD lines

/-- `read_markdown_file`: the `should_run` list is the ungrouped snippets in
file order followed by the test-set snippets in key insertion order, and
likewise for `should_fail`. -/
def read_markdown_file (start_tag end_tag : String) (lines : List String) : Option SnippetGroup :=
  match mdFinal start_tag end_tag lines with
  | none => none
  | some st =>
    some ⟨st.no_ts_run ++ List.map Prod.snd st.ts_run,
          st.no_ts_fail ++ List.map Prod.snd st.ts_fail⟩

/-- `read_code_file`: the whole file content (`f.read()`, the concatenation
of its lines) as a single should-run snippet. -/
def read_code_file (lines : List String) : SnippetGroup := ⟨[String.join lines], []⟩

/-- Per-file execution flags and counter of `main`'s snippet loops
(`skipped`, `failed`, and the contribution to `file_run_count`), plus a
ghost trace of the scripts actually passed to `session.run_script`. -/
structure FileState where
  skipped : Bool
  failed : Bool
  run_count : Nat
  submitted : List String
deriving DecidableEq

/-- Flags at the top of `main`'s per-file section (`skipped = True`,
`failed = False`). -/
def initFile : FileState := ⟨true, false, 0, []⟩

/-- Does submitting a should-run snippet violate its expected outcome: any
raised error does (`except DHError` and `except Exception` both set
`failed = True` in the should-run loop). -/
def runViol (exec : String → RunResult) (s : String) : Bool :=
  match exec s with
  | RunResult.ok => false
  | RunResult.dhError => true
  | RunResult.otherError => true

/-- Does submitting a should-fail snippet violate its expected outcome:
completing without error does (`failed = True` after `run_script`), a
non-`DHError` exception does, and `DHError` alone is the expected failure
(`pass`). -/
def failViol (exec : String → RunResult) (s : String) : Bool :=
  match exec s with
  | RunResult.ok => true
  | RunResult.dhError => false
  | RunResult.otherError => true

/-- Body of `main`'s loop over `script_strings["should_run"]`: a non-empty
script is submitted, the counter incremented, and any raised error (the
server's `DHError` or any other exception) sets `failed`. -/
def submit_run (exec : String → RunResult) (st : FileState) (s : String) : FileState :=
  if s.length != 0 then
    { skipped := false
      failed := st.failed || runViol exec s
      run_count := st.run_count + 1
      submitted := st.submitted ++ [s] }
  else st

/-- Body of `main`'s loop over `script_strings["should_fail"]`: a non-empty
script is submitted and the counter incremented; completing without error or
raising a non-`DHError` exception sets `failed`, while `DHError` is the
expected failure and is swallowed. -/
def submit_fail (exec : String → RunResult) (st : FileState) (s : String) : FileState :=
  if s.length != 0 then
    { skipped := false
      failed := st.failed || failViol exec s
      run_count := st.run_count + 1
      submitted := st.submitted ++ [s] }
  else st

/-- `main`'s two snippet loops for one file: the `should_run` list first,
then the `should_fail` list. -/
def processSnippets (exec : String → RunResult) (g : SnippetGroup) : FileState :=
  List.foldl (submit_fail exec) (List.foldl (submit_run exec) initFile g.should_run) g.should_fail

/-- Terminal classification of a file: the bucket list it is appended to. -/
inductive FileClass where
  | Skipped : FileClass
  | Failed : FileClass
  | Succeeded : FileClass
deriving DecidableEq

/-- The classification `main` derives from the per-file flags (lines
289-296): `skipped_files` if nothing was submitted, else `error_files` when
`failed`, else `success_files`. -/
def classifyFromState (st : FileState) : FileClass :=
  if st.skipped then FileClass.Skipped
  else if st.failed then FileClass.Failed
  else FileClass.Succeeded

/-- The per-file portion of `main` (lines 228-301) for one resolved path:
empty or ignored paths are flagged to skip; `.md` files go through
`read_markdown_file` (whose `IndexError` propagates as `none`); files with
the session's code extension go through `read_code_file`; anything else is
skipped without extraction. -/
def classify_file (exec : String → RunResult) (start_tag end_tag ext : String)
    (ignore : List String) (path : String) (lines : List String) : Option FileClass :=
  if 0 < path.length && !(List.contains ignore path) then
    if strEnds path MD_SUFFIX then
      match read_markdown_file start_tag end_tag lines with
      | none => none
      | some g => some (classifyFromState (processSnippets exec g))
    else if strEnds path ext then
      some (classifyFromState (processSnippets exec (read_code_file lines)))
    else some FileClass.Skipped
  else some FileClass.Skipped

/-- Did the file's submissions violate an expected outcome: a non-empty
should-run snippet not completing, or a non-empty should-fail snippet whose
submission did anything but raise `DHError`. -/
def violationB (exec : String → RunResult) (g : SnippetGroup) : Bool :=
  List.any g.should_run (fun s => s.length != 0 && runViol exec s) ||
  List.any g.should_fail (fun s => s.length != 0 && failViol exec s)

/-- Classification as the specification words it: `Skipped` if the name
matches neither the Markdown suffix nor the configured code extension, or
the path is in the ignore set, or no extracted snippet has a non-empty body;
`Failed` if at least one submitted snippet violated its expected outcome;
otherwise `Succeeded`. Stated over the same extraction functions. -/
def classify_claim (exec : String → RunResult) (start_tag end_tag ext : String)
    (ignore : List String) (path : String) (lines : List String) : Option FileClass :=
  if !(strEnds path MD_SUFFIX || strEnds path ext) || List.contains ignore path then
    some FileClass.Skipped
  else
    match (if strEnds path MD_SUFFIX then read_markdown_file start_tag end_tag lines
           else some (read_code_file lines)) with
    | none => none
    | some g =>
      if List.all (g.should_run ++ g.should_fail) (fun s => s.length == 0) then
        some FileClass.Skipped
      else if violationB exec g then some FileClass.Failed
      else some FileClass.Succeeded

/-- One iteration of `main`'s file loop: the path is appended to exactly one
of the three result lists (skipped, success, error); `none` propagates an
uncaught extraction error. -/
def file_step (exec : String → RunResult) (start_tag end_tag ext : String)
    (ignore : List String) (contents : String → List String)
    (acc : List String × List String × List String) (path : String) :
    Option (List String × List String × List String) :=
  match classify_file exec start_tag end_tag ext ignore path (contents path) with
  | none => none
  | some FileClass.Skipped => some (acc.1 ++ [path], acc.2.1, acc.2.2)
  | some FileClass.Succeeded => some (acc.1, acc.2.1 ++ [path], acc.2.2)
  | some FileClass.Failed => some (acc.1, acc.2.1, acc.2.2 ++ [path])

/-- `main`'s loop over the resolved files, accumulating the
(`skipped_files`, `success_files`, `error_files`) buckets. `files` is the
order in which the iteration over the Python set happens to visit the
resolved paths. -/
def main_loop (exec : String → RunResult) (start_tag end_tag ext : String)
    (ignore : List String) (contents : String → List String) :
    List String × List String × List String → List String →
    Option (List String × List String × List String)
  | acc, [] => some acc
  | acc, p :: rest =>
    match file_step exec start_tag end_tag ext ignore contents acc p with
    | none => none
    | some acc2 => main_loop exec start_tag end_tag ext ignore contents acc2 rest

/-- Splitting a character list at every newline, as Python's
`str.split("\n")` does: no collapsing, one trailing empty piece when the
text ends with a newline, and a single empty piece for the empty text. -/
def splitNl : List Char → List (List Char)
  | [] => [[]]
  | c :: rest =>
    if c = '\n' then [] :: splitNl rest
    else
      match splitNl rest with
      | [] => [[c]]
      | s :: ss => (c :: s) :: ss

/-- The directory branch of `path_to_files`: every line of the
`find {path} -type f | sort` output (split on newlines, the trailing empty
line included) is added to a Python set, modelled as a `Finset`. -/
def path_to_files_dir (findOutput : String) : Finset String :=
  List.toFinset (List.map (fun cs => String.mk cs) (splitNl findOutput.data))

/-- The fatal message `sys.exit` receives when the retry loop of
`connect_to_deephaven` is exhausted. -/
def connect_fail_msg (max_retries : Nat) : String :=
  "Failed to connect to Deephaven after " ++ toString max_retries ++ " attempts"

/-- The retry loop of `connect_to_deephaven` from attempt index `count`:
returns how many further attempts are made and, on success, the index of the
successful attempt. -/
def connect_from (attemptOk : Nat → Bool) (max_retries count : Nat) : Nat × Option Nat :=
  if h : count < max_retries then
    if attemptOk count then (1, some count)
    else
      let r := connect_from attemptOk max_retries (count + 1)
      (r.1 + 1, r.2)
  else (0, none)
termination_by max_retries - count

/-- `connect_to_deephaven`: the retry loop starting at `count = 0`, followed
by the `session is None` check that exits fatally with a message citing
`max_retries`. Returns the number of attempts made together with the
outcome. -/
def connect_to_deephaven (attemptOk : Nat → Bool) (max_retries : Nat) :
    Nat × Except String Nat :=
  match connect_from attemptOk max_retries 0 with
  | (n, some k) => (n, Except.ok k)
  | (n, none) => (n, Except.error (connect_fail_msg max_retries))

/-- `session_type_to_tags_and_extension`: start tag, end tag and code
extension for the two supported session types; `none` models the
`ValueError` for anything else. -/
def session_type_to_tags_and_extension (session_type : String) :
    Option (String × String × String) :=
  if session_type = "python" then some (PYTHON_START_TAG, PYTHON_END_TAG, PYTHON_EXTENSION)
  else if session_type = "groovy" then some (GROOVY_START_TAG, GROOVY_END_TAG, GROOVY_EXTENSION)
  else none

/-- The fatal terminations of `main` before or instead of a normal result:
the configuration `ValueError`, the `sys.exit` after connection retries are
exhausted, the `ValueError` for an unknown session type, and a propagated
extraction `IndexError`. -/
inductive MainErr where
  | configError : MainErr
  | connectExhausted : String → MainErr
  | badSessionType : MainErr
  | extractError : MainErr
deriving DecidableEq

/-- `main` in the order the source performs its steps: the
`reset_between_files`-without-`docker_compose` check first, then the initial
connection, then the session-type lookup, then the file loop. Mid-run resets
replace the session handle, which the `exec` oracle abstracts; the model
covers runs whose mid-run reconnects succeed. -/
def main_model (attemptOk : Nat → Bool) (exec : String → RunResult)
    (session_type : String) (files ignore : List String)
    (contents : String → List String) (max_retries : Nat)
    (docker_compose : Option String) (reset_between_files : Option Nat) :
    Except MainErr (List String × List String × List String) :=
  if Option.isSome reset_between_files && Option.isNone docker_compose then
    Except.error MainErr.configError
  else
    match (connect_to_deephaven attemptOk max_retries).2 with
    | Except.error msg => Except.error (MainErr.connectExhausted msg)
    | Except.ok _ =>
      match session_type_to_tags_and_extension session_type with
      | none => Except.error MainErr.badSessionType
      | some (start_tag, end_tag, ext) =>
        match main_loop exec start_tag end_tag ext ignore contents ([], [], []) files with
        | none => Except.error MainErr.extractError
        | some buckets => Except.ok buckets

/-- Lookup in an insertion-ordered association list (Python `dict[k]`). -/
def assocLookup : List (Nat × String) → Nat → Option String
  | [], _ => none
  | p :: rest, k => if p.1 = k then some p.2 else assocLookup rest k

/-- The keys of an association list, in insertion order (Python
`dict.keys()`). -/
def assocKeys (l : List (Nat × String)) : List Nat := List.map Prod.fst l

/-- The closed blocks that land in the should-run test-set dictionary:
id and body of each closed block with a test-set id and no should-fail
marker, in file order. -/
def runEvents (evs : List (Option Nat × Bool × String)) : List (Nat × String) :=
  List.filterMap (fun e => match e with
    | (some k, false, body) => some (k, body)
    | _ => none) evs

/-- The closed blocks that land in the should-fail test-set dictionary. -/
def failEvents (evs : List (Option Nat × Bool × String)) : List (Nat × String) :=
  List.filterMap (fun e => match e with
    | (some k, true, body) => some (k, body)
    | _ => none) evs

/-- Replaying the dictionary updates for a sequence of (id, body) closes:
the grouped snippets, one entry per distinct id in order of first
appearance, each holding its bodies concatenated in file order. -/
def groupConcat (l : List (Nat × String)) : List (Nat × String) :=
  List.foldl (fun acc p => assocAppend acc p.1 p.2) [] l

/-- The bodies recorded for one test-set id, in file order. -/
def keyBodies (l : List (Nat × String)) (k : Nat) : List String :=
  List.filterMap (fun p => if p.1 = k then some p.2 else none) l

/-- Concatenation of a list of snippet bodies, without any separator. -/
def concatAll (l : List String) : String := List.foldl (fun a b => a ++ b) "" l

/-- Scenario D of the specification: two fenced blocks marked `test-set=1`
with bodies `"a = 1\n"` and `"print(a)\n"`. -/
def scenarioD : List String :=
  ["```python test-set=1\n", "a = 1\n", "```\n", "```python test-set=1\n", "print(a)\n", "```\n"]

/-- The merged snippet the code actually produces for scenario D. -/
def mergedD : String := "a = 1\nprint(a)\n"

/-- The merged snippet the specification asserts for scenario D (with a
blank separator line). -/
def mergedD_claimed : String := "a = 1\n\nprint(a)\n"

/-- A one-line file whose opening delimiter mentions `test-set` with no
following `=<integer>`. -/
def badTestSetFile : List String := ["```python test-set\n"]

/-- A `find | sort` output listing the two files `a` and `b`. -/
def findOutAB : String := "a\nb\n"

/-- One possible iteration order of the Python set holding the resolved
paths of `findOutAB`: not the lexical one. -/
def iterBA : List String := ["b", "a", ""]

/-- The path `"a"`. -/
def strA : String := "a"

/-- The path `"b"`. -/
def strB : String := "b"

/-! ### Helper lemmas -/

lemma str_append_assoc (a b c : String) : a ++ b ++ c = a ++ (b ++ c) := by
  apply String.ext
  show a.data ++ b.data ++ c.data = a.data ++ (b.data ++ c.data)
  exact List.append_assoc a.data b.data c.data

lemma str_nil_append (s : String) : "" ++ s = s := by
  apply String.ext
  show "".data ++ s.data = s.data
  exact List.nil_append s.data

lemma str_append_nil (s : String) : s ++ "" = s := by
  apply String.ext
  show s.data ++ "".data = s.data
  exact List.append_nil s.data

lemma foldl_submit_run_failed (exec : String → RunResult) (l : List String) :
    ∀ st : FileState, (List.foldl (submit_run exec) st l).failed
      = (st.failed || List.any l (fun s => s.length != 0 && runViol exec s)) := by
  induction l with
  | nil => intro st; simp
  | cons s rest ih =>
    intro st
    simp only [List.foldl_cons, List.any_cons, ih, submit_run]
    by_cases h : s.length != 0
    · simp [h, Bool.or_assoc]
    · simp [h]

lemma foldl_submit_fail_failed (exec : String → RunResult) (l : List String) :
    ∀ st : FileState, (List.foldl (submit_fail exec) st l).failed
      = (st.failed || List.any l (fun s => s.length != 0 && failViol exec s)) := by
  induction l with
  | nil => intro st; simp
  | cons s rest ih =>
    intro st
    simp only [List.foldl_cons, List.any_cons, ih, submit_fail]
    by_cases h : s.length != 0
    · simp [h, Bool.or_assoc]
    · simp [h]

lemma foldl_submit_run_skipped (exec : String → RunResult) (l : List String) :
    ∀ st : FileState, (List.foldl (submit_run exec) st l).skipped
      = (st.skipped && List.all l (fun s => s.length == 0)) := by
  induction l with
  | nil => intro st; simp
  | cons s rest ih =>
    intro st
    simp only [List.foldl_cons, List.all_cons, ih, submit_run]
    by_cases h : s.length != 0
    · simp [h]
      intro _ hz
      exact absurd hz (by simpa using h)
    · simp at h
      simp [h]

lemma foldl_submit_fail_skipped (exec : String → RunResult) (l : List String) :
    ∀ st : FileState, (List.foldl (submit_fail exec) st l).skipped
      = (st.skipped && List.all l (fun s => s.length == 0)) := by
  induction l with
  | nil => intro st; simp
  | cons s rest ih =>
    intro st
    simp only [List.foldl_cons, List.all_cons, ih, submit_fail]
    by_cases h : s.length != 0
    · simp [h]
      intro _ hz
      exact absurd hz (by simpa using h)
    · simp at h
      simp [h]

lemma foldl_submit_run_submitted (exec : String → RunResult) (l : List String) :
    ∀ st : FileState, (List.foldl (submit_run exec) st l).submitted
      = st.submitted ++ List.filter (fun s => s.length != 0) l := by
  induction l with
  | nil => intro st; simp
  | cons s rest ih =>
    intro st
    simp only [List.foldl_cons, List.filter_cons, ih, submit_run]
    by_cases h : s.length != 0
    · simp [h]
    · simp [h]

lemma foldl_submit_fail_submitted (exec : String → RunResult) (l : List String) :
    ∀ st : FileState, (List.foldl (submit_fail exec) st l).submitted
      = st.submitted ++ List.filter (fun s => s.length != 0) l := by
  induction l with
  | nil => intro st; simp
  | cons s rest ih =>
    intro st
    simp only [List.foldl_cons, List.filter_cons, ih, submit_fail]
    by_cases h : s.length != 0
    · simp [h]
    · simp [h]

lemma foldl_submit_run_count (exec : String → RunResult) (l : List String) :
    ∀ st : FileState, (List.foldl (submit_run exec) st l).run_count
      = st.run_count + (List.filter (fun s => s.length != 0) l).length := by
  induction l with
  | nil => intro st; simp
  | cons s rest ih =>
    intro st
    simp only [List.foldl_cons, List.filter_cons, ih, submit_run]
    by_cases h : s.length != 0
    · simp [h]
      omega
    · simp [h]

lemma foldl_submit_fail_count (exec : String → RunResult) (l : List String) :
    ∀ st : FileState, (List.foldl (submit_fail exec) st l).run_count
      = st.run_count + (List.filter (fun s => s.length != 0) l).length := by
  induction l with
  | nil => intro st; simp
  | cons s rest ih =>
    intro st
    simp only [List.foldl_cons, List.filter_cons, ih, submit_fail]
    by_cases h : s.length != 0
    · simp [h]
      omega
    · simp [h]

lemma processSnippets_failed (exec : String → RunResult) (g : SnippetGroup) :
    (processSnippets exec g).failed = violationB exec g := by
  simp [processSnippets, violationB, foldl_submit_fail_failed, foldl_submit_run_failed, initFile]

lemma processSnippets_skipped (exec : String → RunResult) (g : SnippetGroup) :
    (processSnippets exec g).skipped
      = List.all (g.should_run ++ g.should_fail) (fun s => s.length == 0) := by
  simp [processSnippets, foldl_submit_fail_skipped, foldl_submit_run_skipped, initFile,
    List.all_append]

lemma processSnippets_submitted (exec : String → RunResult) (g : SnippetGroup) :
    (processSnippets exec g).submitted
      = List.filter (fun s => s.length != 0) (g.should_run ++ g.should_fail) := by
  simp [processSnippets, foldl_submit_fail_submitted, foldl_submit_run_submitted, initFile,
    List.filter_append]

lemma processSnippets_count (exec : String → RunResult) (g : SnippetGroup) :
    (processSnippets exec g).run_count = (processSnippets exec g).submitted.length := by
  simp [processSnippets, foldl_submit_fail_count, foldl_submit_run_count,
    foldl_submit_fail_submitted, foldl_submit_run_submitted, initFile, List.filter_append]

lemma assocLookup_assocAppend (l : List (Nat × String)) (k : Nat) (s : String) (j : Nat) :
    assocLookup (assocAppend l k s) j
      = if j = k then some ((assocLookup l k).getD "" ++ s) else assocLookup l j := by
  induction l with
  | nil =>
    by_cases hj : j = k
    · simp [assocAppend, assocLookup, hj, str_nil_append]
    · have hk : ¬(k = j) := fun h => hj h.symm
      simp [assocAppend, assocLookup, hj, hk]
  | cons p rest ih =>
    by_cases hpk : p.1 = k
    · by_cases hj : j = k
      · simp [assocAppend, assocLookup, hpk, hj, hpk.trans hj.symm]
      · have hpj : ¬(p.1 = j) := fun h => hj ((hpk.symm.trans h).symm)
        have hk : ¬(k = j) := fun h => hj h.symm
        simp [assocAppend, assocLookup, hpk, hj, hpj, hk]
    · by_cases hpj : p.1 = j
      · have hj : ¬(j = k) := fun h => hpk (hpj.trans h)
        simp [assocAppend, assocLookup, hpk, hpj, hj]
      · simp [assocAppend, assocLookup, hpk, hpj, ih]

lemma assocKeys_assocAppend_mem (l : List (Nat × String)) (k : Nat) (s : String)
    (h : k ∈ assocKeys l) : assocKeys (assocAppend l k s) = assocKeys l := by
  induction l with
  | nil => simp [assocKeys] at h
  | cons p rest ih =>
    by_cases hpk : p.1 = k
    · simp [assocAppend, assocKeys, hpk]
    · have hmem : k ∈ assocKeys rest := by
        simp [assocKeys] at h
        rcases h with h | h
        · exact absurd h.symm hpk
        · simpa [assocKeys] using h
      simp [assocAppend, assocKeys, hpk]
      simpa [assocKeys] using ih hmem

lemma assocKeys_assocAppend_not_mem (l : List (Nat × String)) (k : Nat) (s : String)
    (h : ¬(k ∈ assocKeys l)) : assocKeys (assocAppend l k s) = assocKeys l ++ [k] := by
  induction l with
  | nil => simp [assocAppend, assocKeys]
  | cons p rest ih =>
    have hpk : ¬(p.1 = k) := by
      intro he
      exact h (by simp [assocKeys, he])
    have hrest : ¬(k ∈ assocKeys rest) := by
      intro hm
      exact h (by simp [assocKeys] at hm ⊢; exact Or.inr hm)
    simp [assocAppend, assocKeys, hpk]
    simpa [assocKeys] using ih hrest

lemma assocKeys_nodup_assocAppend (l : List (Nat × String)) (k : Nat) (s : String)
    (h : (assocKeys l).Nodup) : (assocKeys (assocAppend l k s)).Nodup := by
  by_cases hm : k ∈ assocKeys l
  · rw [assocKeys_assocAppend_mem l k s hm]
    exact h
  · rw [assocKeys_assocAppend_not_mem l k s hm]
    simp [List.nodup_append, h, hm]

lemma groupConcat_keys_nodup_aux (l : List (Nat × String)) :
    ∀ acc, (assocKeys acc).Nodup
      → (assocKeys (List.foldl (fun acc p => assocAppend acc p.1 p.2) acc l)).Nodup := by
  induction l with
  | nil => intro acc h; simpa using h
  | cons p rest ih =>
    intro acc h
    simp only [List.foldl_cons]
    exact ih _ (assocKeys_nodup_assocAppend _ _ _ h)

lemma groupConcat_keys_nodup (l : List (Nat × String)) : (assocKeys (groupConcat l)).Nodup :=
  groupConcat_keys_nodup_aux l [] (by simp [assocKeys])

lemma foldl_append_hoist (l : List String) :
    ∀ x y : String, List.foldl (fun a b => a ++ b) (x ++ y) l
      = x ++ List.foldl (fun a b => a ++ b) y l := by
  induction l with
  | nil => intro x y; simp
  | cons b rest ih =>
    intro x y
    simp only [List.foldl_cons]
    rw [str_append_assoc, ih]

lemma concatAll_nil : concatAll [] = "" := rfl

lemma concatAll_cons (a : String) (l : List String) : concatAll (a :: l) = a ++ concatAll l := by
  unfold concatAll
  simp only [List.foldl_cons]
  rw [str_nil_append]
  rw [← foldl_append_hoist l a ""]
  rw [str_append_nil]

lemma assocLookup_foldl (l : List (Nat × String)) :
    ∀ (acc : List (Nat × String)) (k : Nat),
      assocLookup (List.foldl (fun acc p => assocAppend acc p.1 p.2) acc l) k
        = (if keyBodies l k = [] then assocLookup acc k
           else some ((assocLookup acc k).getD "" ++ concatAll (keyBodies l k))) := by
  induction l with
  | nil => intro acc k; simp [keyBodies]
  | cons p rest ih =>
    intro acc k
    simp only [List.foldl_cons]
    rw [ih]
    by_cases hpk : p.1 = k
    · have hb : keyBodies (p :: rest) k = p.2 :: keyBodies rest k := by
        simp [keyBodies, hpk]
      have hl : assocLookup (assocAppend acc p.1 p.2) k
          = some ((assocLookup acc k).getD "" ++ p.2) := by
        rw [assocLookup_assocAppend]
        simp [hpk]
      rw [hb]
      by_cases hr : keyBodies rest k = []
      · simp only [hr, hl, concatAll_cons, concatAll_nil, str_append_nil]
        simp
      · simp only [hr, hl, concatAll_cons]
        simp only [Option.getD_some]
        rw [str_append_assoc]
        simp [hr]
    · have hb : keyBodies (p :: rest) k = keyBodies rest k := by
        simp [keyBodies, hpk]
      have hl : assocLookup (assocAppend acc p.1 p.2) k = assocLookup acc k := by
        rw [assocLookup_assocAppend]
        have hk : ¬(k = p.1) := fun h => hpk h.symm
        simp [hk]
      rw [hb, hl]

lemma groupConcat_lookup (l : List (Nat × String)) (k : Nat) :
    assocLookup (groupConcat l) k
      = (if keyBodies l k = [] then none else some (concatAll (keyBodies l k))) := by
  unfold groupConcat
  rw [assocLookup_foldl]
  simp [assocLookup, str_nil_append]

/-- The grouping invariant of the Markdown parser state: each test-set
dictionary is exactly the replay of the dictionary updates of the closed
blocks recorded so far. -/
def MDInv (st : MDState) : Prop :=
  st.ts_run = groupConcat (runEvents st.closed)
    ∧ st.ts_fail = groupConcat (failEvents st.closed)

lemma groupConcat_append_single (l : List (Nat × String)) (p : Nat × String) :
    groupConcat (l ++ [p]) = assocAppend (groupConcat l) p.1 p.2 := by
  unfold groupConcat
  rw [List.foldl_append]
  simp

lemma runEvents_append (a b : List (Option Nat × Bool × String)) :
    runEvents (a ++ b) = runEvents a ++ runEvents b := by
  simp [runEvents, List.filterMap_append]

lemma failEvents_append (a b : List (Option Nat × Bool × String)) :
    failEvents (a ++ b) = failEvents a ++ failEvents b := by
  simp [failEvents, List.filterMap_append]

lemma mdClose_inv (st : MDState) (hinv : MDInv st) : MDInv (mdClose st) := by
  obtain ⟨h1, h2⟩ := hinv
  unfold mdClose
  rcases hts : st.test_set with _ | k <;> rcases hsf : st.should_fail with _ | _
  · constructor
    · simpa [runEvents_append, runEvents, groupConcat_append_single] using h1
    · simpa [failEvents_append, failEvents, groupConcat_append_single] using h2
  · constructor
    · simpa [runEvents_append, runEvents, groupConcat_append_single] using h1
    · simpa [failEvents_append, failEvents, groupConcat_append_single] using h2
  · constructor
    · simp only [runEvents_append]
      simp [runEvents, h1]
      exact (groupConcat_append_single (runEvents st.closed) (k, st.current_script)).symm
    · simpa [failEvents_append, failEvents, groupConcat_append_single] using h2
  · constructor
    · simpa [runEvents_append, runEvents, groupConcat_append_single] using h1
    · simp only [failEvents_append]
      simp [failEvents, h2]
      exact (groupConcat_append_single (failEvents st.closed) (k, st.current_script)).symm

lemma mdStep_inv (start_tag end_tag : String) (st : MDState) (line : String) (st2 : MDState)
    (h : mdStep start_tag end_tag st line = some st2) (hinv : MDInv st) : MDInv st2 := by
  obtain ⟨h1, h2⟩ := hinv
  unfold mdStep at h
  split at h
  · split at h
    · split at h
      · exact absurd h (by simp)
      · injection h with h
        subst h
        exact ⟨h1, h2⟩
    · injection h with h
      subst h
      exact ⟨h1, h2⟩
  · split at h
    · injection h with h
      subst h
      exact mdClose_inv st ⟨h1, h2⟩
    · split at h
      · injection h with h
        subst h
        exact ⟨h1, h2⟩
      · injection h with h
        subst h
        exact ⟨h1, h2⟩

lemma runLines_inv (start_tag end_tag : String) (lines : List String) :
    ∀ st st2 : MDState, runLines start_tag end_tag st lines = some st2
      → MDInv st → MDInv st2 := by
  induction lines with
  | nil =>
    intro st st2 h hi
    unfold runLines at h
    injection h with h
    subst h
    exact hi
  | cons line rest ih =>
    intro st st2 h hi
    unfold runLines at h
    cases hs : mdStep start_tag end_tag st line with
    | none =>
      rw [hs] at h
      exact absurd h (by simp)
    | some stm =>
      rw [hs] at h
      exact ih stm st2 h (mdStep_inv start_tag end_tag st line stm hs hi)

lemma mdFinal_inv (start_tag end_tag : String) (lines : List String) (st : MDState)
    (h : mdFinal start_tag end_tag lines = some st) : MDInv st :=
  runLines_inv start_tag end_tag lines initMD st h ⟨rfl, rfl⟩

lemma classifyFromState_eq (exec : String → RunResult) (g : SnippetGroup) :
    classifyFromState (processSnippets exec g)
      = (if List.all (g.should_run ++ g.should_fail) (fun s => s.length == 0) then
           FileClass.Skipped
         else if violationB exec g then FileClass.Failed
         else FileClass.Succeeded) := by
  unfold classifyFromState
  rw [processSnippets_skipped, processSnippets_failed]

lemma ite_some_push (A B : Prop) [Decidable A] [Decidable B] (x y z : FileClass) :
    some (if A then x else if B then y else z)
      = if A then some x else if B then some y else some z := by
  by_cases hA : A <;> by_cases hB : B <;> simp [hA, hB]

lemma classify_file_eq_claim (exec : String → RunResult) (start_tag end_tag ext : String)
    (ignore : List String) (path : String) (lines : List String) (hp : 0 < path.length) :
    classify_file exec start_tag end_tag ext ignore path lines
      = classify_claim exec start_tag end_tag ext ignore path lines := by
  unfold classify_file classify_claim
  by_cases hig : path ∈ ignore
  · simp [hig, hp]
  · by_cases hmd : strEnds path MD_SUFFIX = true
    · simp [hig, hmd, hp]
      cases hrm : read_markdown_file start_tag end_tag lines with
      | none => simp
      | some g => simp [classifyFromState_eq, ite_some_push]
    · by_cases hext : strEnds path ext = true
      · simp [hig, hmd, hext, hp, classifyFromState_eq, ite_some_push]
      · simp [hig, hmd, hext, hp]

lemma main_loop_counts (exec : String → RunResult) (start_tag end_tag ext : String)
    (ignore : List String) (contents : String → List String) (files : List String) :
    ∀ acc res, main_loop exec start_tag end_tag ext ignore contents acc files = some res →
      ∀ p : String, res.1.count p + res.2.1.count p + res.2.2.count p
        = acc.1.count p + acc.2.1.count p + acc.2.2.count p + files.count p := by
  induction files with
  | nil =>
    intro acc res h p
    unfold main_loop at h
    injection h with h
    subst h
    simp
  | cons q rest ih =>
    intro acc res h p
    unfold main_loop at h
    cases hf : file_step exec start_tag end_tag ext ignore contents acc q with
    | none =>
      rw [hf] at h
      exact absurd h (by simp)
    | some acc2 =>
      rw [hf] at h
      have hres := ih acc2 res h p
      unfold file_step at hf
      split at hf
      · exact absurd hf (by simp)
      · injection hf with hf
        subst hf
        simp only [List.count_append, List.count_cons, List.count_nil] at hres ⊢
        by_cases hpq : (p == q) = true <;> simp [hpq] at hres ⊢ <;> omega
      · injection hf with hf
        subst hf
        simp only [List.count_append, List.count_cons, List.count_nil] at hres ⊢
        by_cases hpq : (p == q) = true <;> simp [hpq] at hres ⊢ <;> omega
      · injection hf with hf
        subst hf
        simp only [List.count_append, List.count_cons, List.count_nil] at hres ⊢
        by_cases hpq : (p == q) = true <;> simp [hpq] at hres ⊢ <;> omega

lemma main_loop_sk_mono (exec : String → RunResult) (start_tag end_tag ext : String)
    (ignore : List String) (contents : String → List String) (files : List String) :
    ∀ acc res p, main_loop exec start_tag end_tag ext ignore contents acc files = some res →
      p ∈ acc.1 → p ∈ res.1 := by
  induction files with
  | nil =>
    intro acc res p h hm
    unfold main_loop at h
    injection h with h
    subst h
    exact hm
  | cons q rest ih =>
    intro acc res p h hm
    unfold main_loop at h
    cases hf : file_step exec start_tag end_tag ext ignore contents acc q with
    | none =>
      rw [hf] at h
      exact absurd h (by simp)
    | some acc2 =>
      rw [hf] at h
      unfold file_step at hf
      split at hf
      · exact absurd hf (by simp)
      · injection hf with hf
        subst hf
        exact ih _ res p h (by simp [hm])
      · injection hf with hf
        subst hf
        exact ih _ res p h hm
      · injection hf with hf
        subst hf
        exact ih _ res p h hm

lemma main_loop_skip_mem (exec : String → RunResult) (start_tag end_tag ext : String)
    (ignore : List String) (contents : String → List String) (files : List String) :
    ∀ acc res p, main_loop exec start_tag end_tag ext ignore contents acc files = some res →
      p ∈ files →
      classify_file exec start_tag end_tag ext ignore p (contents p) = some FileClass.Skipped →
      p ∈ res.1 := by
  induction files with
  | nil =>
    intro acc res p _ hm _
    exact absurd hm (by simp)
  | cons q rest ih =>
    intro acc res p h hm hcl
    unfold main_loop at h
    cases hf : file_step exec start_tag end_tag ext ignore contents acc q with
    | none =>
      rw [hf] at h
      exact absurd h (by simp)
    | some acc2 =>
      rw [hf] at h
      rcases List.mem_cons.mp hm with hq | hrest
      · subst hq
        unfold file_step at hf
        rw [hcl] at hf
        injection hf with hf
        subst hf
        exact main_loop_sk_mono exec start_tag end_tag ext ignore contents rest _ res p h
          (by simp)
      · exact ih acc2 res p h hrest hcl

lemma splitNl_ne_nil (cs : List Char) : splitNl cs ≠ [] := by
  cases cs with
  | nil => simp [splitNl]
  | cons c rest =>
    unfold splitNl
    by_cases h : c = '\n'
    · simp [h]
    · simp only [h, if_false]
      cases splitNl rest <;> simp

lemma splitNl_append_newline (cs : List Char) :
    splitNl (cs ++ ['\n']) = splitNl cs ++ [[]] := by
  induction cs with
  | nil => simp [splitNl]
  | cons c rest ih =>
    by_cases h : c = '\n'
    · simp only [List.cons_append]
      unfold splitNl
      simp [h, ih]
    · simp only [List.cons_append]
      unfold splitNl
      simp only [h, if_false]
      rw [ih]
      cases hr : splitNl rest with
      | nil => exact absurd hr (splitNl_ne_nil rest)
      | cons s ss => simp

lemma empty_mem_path_to_files_dir (out : String)
    (h : out = "" ∨ ∃ cs, out.data = cs ++ ['\n']) :
    "" ∈ path_to_files_dir out := by
  unfold path_to_files_dir
  rw [List.mem_toFinset]
  rcases h with h | ⟨cs, hcs⟩
  · subst h
    simp [splitNl]
  · rw [hcs, splitNl_append_newline]
    rw [List.mem_map]
    exact ⟨[], by simp, rfl⟩

lemma classify_file_empty (exec : String → RunResult) (start_tag end_tag ext : String)
    (ignore : List String) (lines : List String) :
    classify_file exec start_tag end_tag ext ignore "" lines = some FileClass.Skipped := by
  unfold classify_file
  simp

lemma connect_from_all_fail (attemptOk : Nat → Bool) (m : Nat)
    (h : ∀ i, attemptOk i = false) :
    ∀ fuel count, m - count = fuel → connect_from attemptOk m count = (fuel, none) := by
  intro fuel
  induction fuel with
  | zero =>
    intro count hc
    unfold connect_from
    have hnlt : ¬(count < m) := by omega
    simp [hnlt]
  | succ n ih =>
    intro count hc
    unfold connect_from
    have hlt : count < m := by omega
    simp only [hlt, dif_pos, h count]
    rw [ih (count + 1) (by omega)]
    simp

lemma connect_from_first_succ (attemptOk : Nat → Bool) (m k : Nat)
    (hk : attemptOk k = true) (hkm : k < m)
    (hbefore : ∀ i, i < k → attemptOk i = false) :
    ∀ fuel count, k - count = fuel → count ≤ k →
      connect_from attemptOk m count = (k + 1 - count, some k) := by
  intro fuel
  induction fuel with
  | zero =>
    intro count hc hle
    have hck : count = k := by omega
    subst hck
    unfold connect_from
    have hlt : count < m := hkm
    simp [hlt, hk]
  | succ n ih =>
    intro count hc hle
    have hck : count < k := by omega
    unfold connect_from
    have hlt : count < m := by omega
    simp only [hlt, dif_pos, hbefore count hck]
    rw [ih (count + 1) (by omega) (by omega)]
    simp
    omega

lemma connect_to_deephaven_all_fail (attemptOk : Nat → Bool) (m : Nat)
    (h : ∀ i, attemptOk i = false) :
    connect_to_deephaven attemptOk m = (m, Except.error (connect_fail_msg m)) := by
  unfold connect_to_deephaven
  rw [connect_from_all_fail attemptOk m h m 0 (by omega)]

lemma connect_to_deephaven_succ (attemptOk : Nat → Bool) (m k : Nat)
    (hk : attemptOk k = true) (hkm : k < m)
    (hbefore : ∀ i, i < k → attemptOk i = false) :
    connect_to_deephaven attemptOk m = (k + 1, Except.ok k) := by
  unfold connect_to_deephaven
  rw [connect_from_first_succ attemptOk m k hk hkm hbefore k 0 (by omega) (by omega)]
  simp

lemma mdStep_isSome (start_tag end_tag : String) (st : MDState) (line : String)
    (h : strStarts line start_tag = true → strContains line TEST_SET_TEXT = true
      → (findTestSet line.data).isSome = true) :
    (mdStep start_tag end_tag st line).isSome = true := by
  unfold mdStep
  split
  · rename_i hcond
    simp only [Bool.and_eq_true] at hcond
    split
    · rename_i hts
      have hs := h hcond.1.1 hts
      cases hf : findTestSet line.data with
      | none =>
        rw [hf] at hs
        simp at hs
      | some n => simp [hf]
    · simp
  · split
    · simp
    · split
      · simp
      · simp

lemma runLines_isSome (start_tag end_tag : String) (lines : List String)
    (h : ∀ line ∈ lines, strStarts line start_tag = true
      → strContains line TEST_SET_TEXT = true
      → (findTestSet line.data).isSome = true) :
    ∀ st : MDState, (runLines start_tag end_tag st lines).isSome = true := by
  induction lines with
  | nil => intro st; simp [runLines]
  | cons line rest ih =>
    intro st
    unfold runLines
    cases hs : mdStep start_tag end_tag st line with
    | none =>
      have hsome := mdStep_isSome start_tag end_tag st line (h line (by simp))
      rw [hs] at hsome
      simp at hsome
    | some st2 =>
      exact ih (fun l hl => h l (by simp [hl])) st2

/-! ### Claim theorems -/

/-- A concrete non-empty snippet. -/
def strX : String := "x"

/-- A one-snippet group with the script `strX` in the Success bucket. -/
def gX : SnippetGroup := ⟨[strX], []⟩

/-- A session oracle whose every submission raises `DHError`. -/
def execDh : String → RunResult := fun _ => RunResult.dhError

/-- A connection oracle whose every attempt fails. -/
def okNever : Nat → Bool := fun _ => false

/-- A connection oracle whose third attempt (index 2) succeeds. -/
def okAt2 : Nat → Bool := fun i => i == 2

/-- A well-formed Markdown file using a `test-set=1` block, whose first
line is prose mentioning `test-set` with no `=<integer>` — harmless, since
the regex subscript runs only on opening delimiter lines. -/
def goodLines : List String :=
  ["the test-set marker is explained here\n", "```python test-set=1\n", "x\n", "```\n"]

/-- An opening line carrying the skip-test marker. -/
def skipLine : String := "```python skip-test\n"

/-- The parser state after consuming `scenarioD`. -/
def stD : MDState :=
  ⟨[], [(1, "a = 1\nprint(a)\n")], [], [], none, false, false, "print(a)\n",
    [(some 1, false, "a = 1\n"), (some 1, false, "print(a)\n")]⟩

/-- Claim C1: for a snippet of the Failure bucket, submission raising the
server's `DHError` leaves the failed flag (hence the file's classification)
unaffected, completing without error marks the file failed, and any other
error kind also marks it failed; for a snippet of the Success bucket, any
error marks the file failed; and the submission trace covers every
non-empty snippet of both buckets, so the remaining snippets of the file
are still processed after a violation. -/
theorem spec_c1 (exec : String → RunResult) (st : FileState) (s : String)
    (g : SnippetGroup) (hs : s.length ≠ 0) :
    ((exec s = RunResult.dhError → (submit_fail exec st s).failed = st.failed) ∧
     (exec s = RunResult.ok → (submit_fail exec st s).failed = true) ∧
     (exec s = RunResult.otherError → (submit_fail exec st s).failed = true) ∧
     (exec s ≠ RunResult.ok → (submit_run exec st s).failed = true)) ∧
    (processSnippets exec g).submitted
      = List.filter (fun t => t.length != 0) (g.should_run ++ g.should_fail) := by
  have hb : (s.length != 0) = true := by simpa using hs
  constructor
  · refine ⟨?_, ?_, ?_, ?_⟩
    · intro he
      simp [submit_fail, hb, failViol, he]
    · intro he
      simp [submit_fail, hb, failViol, he]
    · intro he
      simp [submit_fail, hb, failViol, he]
    · intro he
      have hv : runViol exec s = true := by
        unfold runViol
        cases hx : exec s
        · exact absurd hx he
        · rfl
        · rfl
      simp [submit_run, hb, hv]
  · exact processSnippets_submitted exec g

/-- Witness for C1 at a concrete oracle, state and snippet group. -/
theorem spec_c1_witness :
    strX.length ≠ 0 ∧
    (((execDh strX = RunResult.dhError →
        (submit_fail execDh initFile strX).failed = initFile.failed) ∧
      (execDh strX = RunResult.ok → (submit_fail execDh initFile strX).failed = true) ∧
      (execDh strX = RunResult.otherError →
        (submit_fail execDh initFile strX).failed = true) ∧
      (execDh strX ≠ RunResult.ok → (submit_run execDh initFile strX).failed = true)) ∧
     (processSnippets execDh gX).submitted
       = List.filter (fun t => t.length != 0) (gX.should_run ++ gX.should_fail)) :=
  ⟨by decide, spec_c1 execDh initFile strX gX (by decide)⟩

/-- Claim C2: every resolved, non-empty path gets exactly one terminal
classification per run: the per-file classification agrees with the rule
"Skipped iff unrecognized extension, ignored, or no non-empty snippet;
Failed iff some submitted snippet violated its expected outcome; otherwise
Succeeded", and a completed run places each distinct visited path in
exactly one of the three result buckets. -/
theorem spec_c2 (exec : String → RunResult) (start_tag end_tag ext : String)
    (ignore : List String) (contents : String → List String) (files : List String)
    (path : String) (lines : List String) (sk su er : List String)
    (hp : 0 < path.length) :
    classify_file exec start_tag end_tag ext ignore path lines
      = classify_claim exec start_tag end_tag ext ignore path lines ∧
    (main_loop exec start_tag end_tag ext ignore contents ([], [], []) files
        = some (sk, su, er) →
      List.Nodup files → path ∈ files →
      sk.count path + su.count path + er.count path = 1) := by
  constructor
  · exact classify_file_eq_claim exec start_tag end_tag ext ignore path lines hp
  · intro h hn hm
    have hc := main_loop_counts exec start_tag end_tag ext ignore contents files
      ([], [], []) (sk, su, er) h path
    simp only [List.count_nil] at hc
    rw [hc]
    simpa using List.count_eq_one_of_mem hn hm

/-- Witness for C2 at a concrete path and run. -/
theorem spec_c2_witness :
    0 < strX.length ∧
    (classify_file execDh PYTHON_START_TAG PYTHON_END_TAG PYTHON_EXTENSION [] strX []
       = classify_claim execDh PYTHON_START_TAG PYTHON_END_TAG PYTHON_EXTENSION [] strX [] ∧
     (main_loop execDh PYTHON_START_TAG PYTHON_END_TAG PYTHON_EXTENSION [] (fun _ => [])
         ([], [], []) [strX] = some ([strX], [], []) →
       List.Nodup [strX] → strX ∈ [strX] →
       ([strX] : List String).count strX + ([] : List String).count strX
         + ([] : List String).count strX = 1)) :=
  ⟨by decide, spec_c2 execDh PYTHON_START_TAG PYTHON_END_TAG PYTHON_EXTENSION []
    (fun _ => []) [strX] strX [] [strX] [] [] (by decide)⟩

/-- The code concatenates test-set bodies with no separator: scenario D
produces the single merged snippet `"a = 1\nprint(a)\n"`, not the
blank-line-separated `"a = 1\n\nprint(a)\n"` the claim asserts. -/
theorem spec_c3_counterexample :
    read_markdown_file PYTHON_START_TAG PYTHON_END_TAG scenarioD = some ⟨[mergedD], []⟩
      ∧ ¬(mergedD = mergedD_claimed) :=
  ⟨by decide, by decide⟩

/-- Claim C3 (amended): in every Markdown file, the snippets sharing a
test-set id are merged into exactly one snippet of the corresponding
outcome bucket — the test-set dictionaries have pairwise-distinct keys and
each entry is the concatenation, in file order and without any separator,
of the bodies closed under that id; in particular scenario D yields the
single merged Success snippet `"a = 1\nprint(a)\n"`, and it is submitted
exactly once. -/
theorem spec_c3 :
    (∀ start_tag end_tag : String, ∀ lines : List String, ∀ st : MDState,
      mdFinal start_tag end_tag lines = some st →
        st.ts_run = groupConcat (runEvents st.closed) ∧
        st.ts_fail = groupConcat (failEvents st.closed) ∧
        (assocKeys st.ts_run).Nodup ∧ (assocKeys st.ts_fail).Nodup ∧
        (∀ k, assocLookup st.ts_run k
          = (if keyBodies (runEvents st.closed) k = [] then none
             else some (concatAll (keyBodies (runEvents st.closed) k)))) ∧
        (∀ k, assocLookup st.ts_fail k
          = (if keyBodies (failEvents st.closed) k = [] then none
             else some (concatAll (keyBodies (failEvents st.closed) k))))) ∧
    read_markdown_file PYTHON_START_TAG PYTHON_END_TAG scenarioD = some ⟨[mergedD], []⟩ ∧
    (∀ exec : String → RunResult,
      (processSnippets exec ⟨[mergedD], []⟩).submitted = [mergedD]) := by
  refine ⟨?_, by decide, ?_⟩
  · intro start_tag end_tag lines st h
    obtain ⟨h1, h2⟩ := mdFinal_inv start_tag end_tag lines st h
    refine ⟨h1, h2, ?_, ?_, ?_, ?_⟩
    · rw [h1]
      exact groupConcat_keys_nodup _
    · rw [h2]
      exact groupConcat_keys_nodup _
    · intro k
      rw [h1]
      exact groupConcat_lookup _ k
    · intro k
      rw [h2]
      exact groupConcat_lookup _ k
  · intro exec
    rw [processSnippets_submitted]
    decide

/-- Witness for C3: the grouping characterization evaluated on scenario D's
final parser state. -/
theorem spec_c3_witness :
    mdFinal PYTHON_START_TAG PYTHON_END_TAG scenarioD = some stD ∧
    (stD.ts_run = groupConcat (runEvents stD.closed) ∧
     stD.ts_fail = groupConcat (failEvents stD.closed)) :=
  ⟨by decide, by
    have h := (spec_c3.1 PYTHON_START_TAG PYTHON_END_TAG scenarioD stD (by decide))
    exact ⟨h.1, h.2.1⟩⟩

/-- The resolved paths form a Python set, whose iteration order is
unspecified: `iterBA` is a Nodup enumeration of the resolved set of
`findOutAB` in which `"b"` comes before `"a"`, refuting lexical-order
consumption by the per-file loop. -/
theorem spec_c4_counterexample :
    List.Nodup iterBA ∧ iterBA.toFinset = path_to_files_dir findOutAB ∧
      ¬(List.indexOf strA iterBA < List.indexOf strB iterBA) :=
  ⟨by decide, by decide, by decide⟩

/-- Claim C4 (amended): the File-Set Resolver returns the files of the
directory listing as an unordered set; the per-file loop consumes whatever
enumeration of that set the iteration yields, visiting each resolved path
exactly once — no particular (in particular no lexical) order is
guaranteed. -/
theorem spec_c4 (out : String) (l : List String) (exec : String → RunResult)
    (start_tag end_tag ext : String) (ignore : List String)
    (contents : String → List String) (sk su er : List String)
    (hn : List.Nodup l) (hset : l.toFinset = path_to_files_dir out)
    (hrun : main_loop exec start_tag end_tag ext ignore contents ([], [], []) l
      = some (sk, su, er)) :
    ∀ p ∈ l, sk.count p + su.count p + er.count p = 1 := by
  intro p hp
  have hc := main_loop_counts exec start_tag end_tag ext ignore contents l
    ([], [], []) (sk, su, er) hrun p
  simp only [List.count_nil] at hc
  rw [hc]
  simpa using List.count_eq_one_of_mem hn hp

/-- Witness for C4 at a concrete set enumeration and run. -/
theorem spec_c4_witness :
    List.Nodup iterBA ∧ iterBA.toFinset = path_to_files_dir findOutAB ∧
    main_loop execDh PYTHON_START_TAG PYTHON_END_TAG PYTHON_EXTENSION [] (fun _ => [])
      ([], [], []) iterBA = some (iterBA, [], []) ∧
    (∀ p ∈ iterBA, iterBA.count p + ([] : List String).count p
      + ([] : List String).count p = 1) :=
  ⟨by decide, by decide, by decide,
    spec_c4 findOutAB iterBA execDh PYTHON_START_TAG PYTHON_END_TAG PYTHON_EXTENSION []
      (fun _ => []) iterBA [] [] (by decide) (by decide) (by decide)⟩

/-- An opening line containing `test-set` with no `=<integer>` after it
makes `re.findall(r'test-set=(\d+)', line)[0]` raise `IndexError`: the
extractor fails on `badTestSetFile` instead of returning a SnippetGroup. -/
theorem spec_c5_counterexample :
    read_markdown_file PYTHON_START_TAG PYTHON_END_TAG badTestSetFile = none := by
  decide

/-- Claim C5 (amended): the extractor returns a SnippetGroup for every file
content in which every opening delimiter line (a line starting with the
start tag — the only lines on which the regex subscript runs) that mentions
`test-set` also matches `test-set=(\d+)`; other lines may mention
`test-set` freely; an opening delimiter line containing `test-set` without
such a match raises an uncaught `IndexError` instead. -/
theorem spec_c5 (start_tag end_tag : String) (lines : List String)
    (h : ∀ line ∈ lines, strStarts line start_tag = true
      → strContains line TEST_SET_TEXT = true
      → (findTestSet line.data).isSome = true) :
    (read_markdown_file start_tag end_tag lines).isSome = true := by
  unfold read_markdown_file mdFinal
  have hr := runLines_isSome start_tag end_tag lines h initMD
  cases hc : runLines start_tag end_tag initMD lines with
  | none =>
    rw [hc] at hr
    simp at hr
  | some st => simp

/-- Witness for C5 on a file whose openers are well-formed even though a
prose line mentions `test-set` without `=<integer>`. -/
theorem spec_c5_witness :
    (∀ line ∈ goodLines, strStarts line PYTHON_START_TAG = true
      → strContains line TEST_SET_TEXT = true
      → (findTestSet line.data).isSome = true) ∧
    (read_markdown_file PYTHON_START_TAG PYTHON_END_TAG goodLines).isSome = true :=
  ⟨by decide, spec_c5 PYTHON_START_TAG PYTHON_END_TAG goodLines (by decide)⟩

/-- Claim C6: an opening line carrying the skip-test or syntax marker never
opens a snippet region: outside a snippet, such a line leaves the parser
state — and hence both output buckets — unchanged. -/
theorem spec_c6 (start_tag end_tag : String) (st : MDState) (line : String)
    (hin : st.in_script = false)
    (hmark : strContains line SKIP_TEXT = true ∨ strContains line SYN_TEXT = true) :
    mdStep start_tag end_tag st line = some st := by
  unfold mdStep
  have hskip : (strContains line SKIP_TEXT || strContains line SYN_TEXT) = true := by
    rcases hmark with h | h <;> simp [h]
  simp [hin, hskip]

/-- Witness for C6 on a skip-test opener. -/
theorem spec_c6_witness :
    initMD.in_script = false ∧
    (strContains skipLine SKIP_TEXT = true ∨ strContains skipLine SYN_TEXT = true) ∧
    mdStep PYTHON_START_TAG PYTHON_END_TAG initMD skipLine = some initMD :=
  ⟨rfl, Or.inl (by decide),
    spec_c6 PYTHON_START_TAG PYTHON_END_TAG initMD skipLine rfl (Or.inl (by decide))⟩

/-- Claim C7: a reset threshold (any value, 0 included) without a
docker-compose command makes `main` raise the configuration `ValueError`
first, whatever the connection oracle, session oracle and file set — i.e.
before any process launch or connection attempt, so the run performs no
network activity. -/
theorem spec_c7 (attemptOk : Nat → Bool) (exec : String → RunResult)
    (session_type : String) (files ignore : List String)
    (contents : String → List String) (max_retries n : Nat) :
    main_model attemptOk exec session_type files ignore contents max_retries none (some n)
      = Except.error MainErr.configError := by
  unfold main_model
  simp

/-- Claim C8: when every connection attempt fails, `connect_to_deephaven`
makes exactly `max_retries` attempts and exits fatally with the message
citing that count, and the whole run aborts with that fatal error before
any file is processed; when some attempt succeeds, the session is returned
right after the first successful attempt and no further attempts are made. -/
theorem spec_c8 (ok1 ok2 : Nat → Bool) (m k : Nat) (exec : String → RunResult)
    (session_type : String) (files ignore : List String)
    (contents : String → List String) (dc : Option String)
    (h1 : ∀ i, ok1 i = false) (h2 : ok2 k = true)
    (h3 : ∀ i, i < k → ok2 i = false) (h4 : k < m) :
    connect_to_deephaven ok1 m = (m, Except.error (connect_fail_msg m)) ∧
    main_model ok1 exec session_type files ignore contents m dc none
      = Except.error (MainErr.connectExhausted (connect_fail_msg m)) ∧
    connect_to_deephaven ok2 m = (k + 1, Except.ok k) := by
  refine ⟨connect_to_deephaven_all_fail ok1 m h1, ?_,
    connect_to_deephaven_succ ok2 m k h2 h4 h3⟩
  unfold main_model
  rw [connect_to_deephaven_all_fail ok1 m h1]
  simp

/-- Witness for C8: 25 failing attempts, and a success at the third
attempt. -/
theorem spec_c8_witness :
    (∀ i, okNever i = false) ∧ okAt2 2 = true ∧ 2 < 25 ∧
    (connect_to_deephaven okNever 25 = (25, Except.error (connect_fail_msg 25)) ∧
     main_model okNever execDh "python" [] [] (fun _ => []) 25 none none
       = Except.error (MainErr.connectExhausted (connect_fail_msg 25)) ∧
     connect_to_deephaven okAt2 25 = (3, Except.ok 2)) :=
  ⟨fun _ => rfl, by decide, by decide,
    spec_c8 okNever okAt2 25 2 execDh "python" [] [] (fun _ => []) none
      (fun _ => rfl) (by decide)
      (fun i hi => by
        match i, hi with
        | 0, _ => rfl
        | 1, _ => rfl)
      (by decide)⟩

/-- Claim C9: an empty-bodied snippet is never submitted: the submission
trace of a file never contains the empty string, and the cumulative
submission counter is incremented exactly once per actual submission. -/
theorem spec_c9 (exec : String → RunResult) (g : SnippetGroup) :
    ¬("" ∈ (processSnippets exec g).submitted) ∧
    (processSnippets exec g).run_count = (processSnippets exec g).submitted.length := by
  constructor
  · rw [processSnippets_submitted]
    intro hm
    have hp := List.of_mem_filter hm
    simp at hp
  · exact processSnippets_count exec g

/-- Claim C10: for a directory run the resolver's set contains the empty
string (the trailing line of the `find` output is added with no
non-emptiness filter), and a completed run classifies that empty path into
the skipped bucket, so the reported skipped-files list contains a blank
entry. -/
theorem spec_c10 (out : String) (l : List String) (exec : String → RunResult)
    (start_tag end_tag ext : String) (ignore : List String)
    (contents : String → List String) (sk su er : List String)
    (hout : out = "" ∨ ∃ cs, out.data = cs ++ ['\n'])
    (hset : l.toFinset = path_to_files_dir out)
    (hrun : main_loop exec start_tag end_tag ext ignore contents ([], [], []) l
      = some (sk, su, er)) :
    "" ∈ path_to_files_dir out ∧ "" ∈ sk := by
  have hmem : "" ∈ path_to_files_dir out := empty_mem_path_to_files_dir out hout
  refine ⟨hmem, ?_⟩
  have hl : "" ∈ l := by
    rw [← List.mem_toFinset, hset]
    exact hmem
  exact main_loop_skip_mem exec start_tag end_tag ext ignore contents l ([], [], [])
    (sk, su, er) "" hrun hl
    (classify_file_empty exec start_tag end_tag ext ignore (contents ""))

/-- Witness for C10 on a concrete directory listing and run. -/
theorem spec_c10_witness :
    (findOutAB = "" ∨ ∃ cs, findOutAB.data = cs ++ ['\n']) ∧
    iterBA.toFinset = path_to_files_dir findOutAB ∧
    main_loop execDh PYTHON_START_TAG PYTHON_END_TAG PYTHON_EXTENSION [] (fun _ => [])
      ([], [], []) iterBA = some (iterBA, [], []) ∧
    ("" ∈ path_to_files_dir findOutAB ∧ "" ∈ iterBA) :=
  ⟨Or.inr ⟨['a', '\n', 'b'], by decide⟩, by decide, by decide,
    spec_c10 findOutAB iterBA execDh PYTHON_START_TAG PYTHON_END_TAG PYTHON_EXTENSION []
      (fun _ => []) iterBA [] [] (Or.inr ⟨['a', '\n', 'b'], by decide⟩) (by decide)
      (by decide)⟩
